import Mathlib

/-!
Verification of the judge-scoring core of scar-judging-django.

The definitions below are a shallow embedding of
`tournaments/models.py` (`JudgeScore.add_judge_score`,
`JudgeScore.remove_judge_score`, `JudgeScore.calculate_result`) and of the
judge-facing views in `tournaments/views.py` (`match_scores` POST,
`delete_judge_score`).  Python dicts are embedded as insertion-ordered
association lists (which is exactly the iteration order `dict` guarantees),
Python ints as `Int`, and Python truthiness tests (`if judge.get('scores')`,
`if judge.get('koWinnerId')`) are embedded explicitly: `None` and `0` and
`{}` are falsy.
-/

namespace Scar

/-- One judge's stored submission: the value stored by
`JudgeScore.add_judge_score` under `self.judges[judge_id]`
(`scores`, `isKO`, `koWinnerId`, `submittedAt`). -/
structure Submission where
  scores : Option (List (String × Int))
  isKO : Bool
  koWinnerId : Option Int
  submittedAt : String
deriving Repr, DecidableEq

/-- The dict returned by `JudgeScore.calculate_result`
(`winnerId`, `winMethod`, `scoreA`, `scoreB`, and `koVotes` in the KO
branch only).  `winnerId` is optional because in the points branch the code
returns `self.competitor_a_id` / `self.competitor_b_id`, which are nullable
columns. -/
structure MatchResult where
  winnerId : Option Int
  winMethod : String
  scoreA : Int
  scoreB : Int
  koVotes : Option Nat
deriving Repr, DecidableEq

/-- The `JudgeScore` row: one record per match.  `judges` is the JSON dict
mapping judge id to submission, kept in insertion order. -/
structure JudgeScore where
  match_id : String
  tournament_id : String
  competitor_a_id : Option Int
  competitor_b_id : Option Int
  judges : List (String × Submission)
  finalized : Bool
  result : Option MatchResult
deriving Repr, DecidableEq

/-- Python `scores.get(key, 0)` on the embedded scores dict. -/
def lookupScore : List (String × Int) → String → Int
  | [], _ => 0
  | (k, v) :: rest, c => if k = c then v else lookupScore rest c

/-- Python truthiness of `judge.get('scores')`: `None` and the empty dict
are falsy, a non-empty dict is truthy. -/
def scoresTruthy : Option (List (String × Int)) → Bool
  | none => false
  | some l => !l.isEmpty

/-- The per-judge score for competitor A computed in the point-tally loop of
`calculate_result`: `scores.get('aggression', 0) + scores.get('damage', 0)
+ scores.get('control', 0)`.  Any other category key is never read. -/
def judgeScoreA (j : Submission) : Int :=
  lookupScore (j.scores.getD []) "aggression" +
  lookupScore (j.scores.getD []) "damage" +
  lookupScore (j.scores.getD []) "control"

/-- The key a submission contributes to the `ko_votes` dict, if any:
`if judge.get('isKO') and judge.get('koWinnerId')`.  Python truthiness
makes `None` and `0` falsy, so a vote whose winner id is `0` is dropped. -/
def koVoteKey (j : Submission) : Option Int :=
  if j.isKO then
    match j.koWinnerId with
    | some w => if w = 0 then none else some w
    | none => none
  else none

/-- One step of `ko_votes[winner_id] = ko_votes.get(winner_id, 0) + 1` on
the insertion-ordered dict: bump an existing key in place, else append. -/
def koBump : List (Int × Nat) → Int → List (Int × Nat)
  | [], w => [(w, 1)]
  | (k, v) :: rest, w =>
      if k = w then (k, v + 1) :: rest else (k, v) :: koBump rest w

/-- The first loop of `calculate_result`: fold the submissions (in judges
insertion order) into the `ko_votes` dict, starting from `acc`. -/
def koTallyFrom : List (Int × Nat) → List (String × Submission) → List (Int × Nat)
  | acc, [] => acc
  | acc, kv :: rest =>
      koTallyFrom
        (match koVoteKey kv.2 with
         | some w => koBump acc w
         | none => acc)
        rest

/-- The second loop of `calculate_result`:
`for winner_id, votes in ko_votes.items(): if votes >= 2: return ...`,
i.e. the first entry (in insertion order) with at least 2 votes. -/
def findMaj : List (Int × Nat) → Option (Int × Nat)
  | [] => none
  | kv :: rest => if 2 ≤ kv.2 then some kv else findMaj rest

/-- The point-tally loop of `calculate_result`: accumulate
`total_a += judge_score_a; total_b += (11 - judge_score_a)` over the judges,
skipping submissions whose `scores` is falsy. -/
def pointTotalsFrom (ta tb : Int) : List (String × Submission) → Int × Int
  | [] => (ta, tb)
  | kv :: rest =>
      if scoresTruthy kv.2.scores then
        pointTotalsFrom (ta + judgeScoreA kv.2) (tb + (11 - judgeScoreA kv.2)) rest
      else
        pointTotalsFrom ta tb rest

/-- `JudgeScore.calculate_result`: KO-majority check first (first winner id
with 2 or more votes, fixed total `11 * 3`, full total to the voted winner
where "winner is A" means `int(winner_id) == self.competitor_a_id`), and
otherwise the point tally with winner
`self.competitor_a_id if total_a > total_b else self.competitor_b_id`. -/
def calculate_result (r : JudgeScore) : MatchResult :=
  match findMaj (koTallyFrom [] r.judges) with
  | some kv =>
      { winnerId := some kv.1
        winMethod := "ko"
        scoreA := if r.competitor_a_id = some kv.1 then 11 * 3 else 0
        scoreB := if r.competitor_a_id = some kv.1 then 0 else 11 * 3
        koVotes := some kv.2 }
  | none =>
      { winnerId :=
          if (pointTotalsFrom 0 0 r.judges).2 < (pointTotalsFrom 0 0 r.judges).1
          then r.competitor_a_id else r.competitor_b_id
        winMethod := "points"
        scoreA := (pointTotalsFrom 0 0 r.judges).1
        scoreB := (pointTotalsFrom 0 0 r.judges).2
        koVotes := none }

/-- Python dict assignment `self.judges[judge_id] = ...`: replace in place
when the key exists, append when it does not. -/
def setJudge : List (String × Submission) → String → Submission → List (String × Submission)
  | [], k, v => [(k, v)]
  | (k0, v0) :: rest, k, v =>
      if k0 = k then (k0, v) :: rest else (k0, v0) :: setJudge rest k v

/-- Python membership test `judge_id in self.judges`. -/
def hasJudge : List (String × Submission) → String → Bool
  | [], _ => false
  | (k0, _) :: rest, k => k0 == k || hasJudge rest k

/-- Python `del self.judges[judge_id]` on the insertion-ordered dict. -/
def removeJudge : List (String × Submission) → String → List (String × Submission)
  | [], _ => []
  | (k0, v0) :: rest, k =>
      if k0 = k then rest else (k0, v0) :: removeJudge rest k

/-- Dict read `self.judges.get(judge_id)`, used to state which judges hold
a live submission. -/
def lookupJudge : List (String × Submission) → String → Option Submission
  | [], _ => none
  | (k0, v0) :: rest, k => if k0 = k then some v0 else lookupJudge rest k

/-- The keys of the embedded judges dict are pairwise distinct — the
invariant every list coming from a Python dict satisfies. -/
def judgesNodup : List (String × Submission) → Bool
  | [] => true
  | (k0, _) :: rest => !hasJudge rest k0 && judgesNodup rest

/-- `JudgeScore.add_judge_score(judge_id, scores, is_ko, ko_winner_id)`:
store the submission dict under the judge's key (`submittedAt` is the
current time, threaded in as `now`). -/
def add_judge_score (r : JudgeScore) (judge_id : String)
    (scores : Option (List (String × Int))) (is_ko : Bool)
    (ko_winner_id : Option Int) (now : String) : JudgeScore :=
  { r with
    judges := setJudge r.judges judge_id
      { scores := scores, isKO := is_ko, koWinnerId := ko_winner_id,
        submittedAt := now } }

/-- `JudgeScore.remove_judge_score(judge_id)`: delete the judge's entry and
return `True` when it exists, otherwise leave the record alone and return
`False`. -/
def remove_judge_score (r : JudgeScore) (judge_id : String) : JudgeScore × Bool :=
  if hasJudge r.judges judge_id then
    ({ r with judges := removeJudge r.judges judge_id }, true)
  else
    (r, false)

/-- The validated body of `SubmitScoreSerializer`: `judge_id`,
`tournament_id` and the two competitor ids are required; `scores` is an
arbitrary optional JSON mapping, `is_ko` defaults to false, `ko_winner_id`
is an optional integer. -/
structure SubmitPayload where
  judge_id : String
  tournament_id : String
  competitor_a_id : Int
  competitor_b_id : Int
  scores : Option (List (String × Int))
  is_ko : Bool
  ko_winner_id : Option Int
deriving Repr, DecidableEq

/-- The JSON body answered by the POST branch of `match_scores`. -/
structure SubmitResponse where
  success : Bool
  judgeCount : Nat
  finalized : Bool
  result : Option MatchResult
  message : Option String
deriving Repr, DecidableEq

/-- The POST branch of the `match_scores` view, up to the database write:
get-or-create the record (the defaults fix `tournament_id` and the two
competitor ids only at creation), store the judge's submission, and when
`judge_count >= 3 and not finalized` compute and store the result and set
`finalized`.  The best-effort Challonge/Discord calls that follow do not
touch the record and are omitted; the returned pair is (stored record,
response body). -/
def match_scores_post (score0 : Option JudgeScore) (mid : String)
    (p : SubmitPayload) (now : String) : JudgeScore × SubmitResponse :=
  let score :=
    match score0 with
    | some s => s
    | none =>
        { match_id := mid
          tournament_id := p.tournament_id
          competitor_a_id := some p.competitor_a_id
          competitor_b_id := some p.competitor_b_id
          judges := []
          finalized := false
          result := none }
  let score := add_judge_score score p.judge_id p.scores p.is_ko p.ko_winner_id now
  if 3 ≤ score.judges.length ∧ score.finalized = false then
    let res := calculate_result score
    ({ score with result := some res, finalized := true },
     { success := true
       judgeCount := score.judges.length
       finalized := true
       result := some res
       message := none })
  else
    (score,
     { success := true
       judgeCount := score.judges.length
       finalized := false
       result := none
       message := some ("Waiting for " ++
         toString ((3 : Int) - (score.judges.length : Int)) ++
         " more judge(s)") })

/-- The HTTP outcome of the `delete_judge_score` view: status code, whether
the body is `{'success': True, ...}`, and the `error` message if any. -/
structure DeleteResponse where
  status : Nat
  success : Bool
  error : Option String
deriving Repr, DecidableEq

/-- The `delete_judge_score` view: 404 when no record exists for the match,
400 `Match already finalized` when the record is finalized, otherwise
`remove_judge_score`; a successful removal answers 200, a missing judge
answers 404 `Score not found`.  Returns (stored record, response). -/
def delete_judge_score (score0 : Option JudgeScore) (judge_id : String) :
    Option JudgeScore × DeleteResponse :=
  match score0 with
  | none => (none, { status := 404, success := false, error := some "Score not found" })
  | some score =>
      if score.finalized then
        (some score,
         { status := 400, success := false, error := some "Match already finalized" })
      else
        let rb := remove_judge_score score judge_id
        if rb.2 then
          (some rb.1, { status := 200, success := true, error := none })
        else
          (some rb.1, { status := 404, success := false, error := some "Score not found" })

/-- The record state after a `delete_judge_score` call on an existing
record: unchanged when finalized, else the `remove_judge_score` state. -/
def deleteState (r : JudgeScore) (judge_id : String) : JudgeScore :=
  if r.finalized then r else (remove_judge_score r judge_id).1

/-- Claim-level vote count: the number of submissions with
`isKnockout = true` and `knockoutWinner = w` (a non-null vote for `w`). -/
def countVotes : List (String × Submission) → Int → Nat
  | [], _ => 0
  | kv :: rest, w =>
      (if kv.2.isKO && kv.2.koWinnerId == some w then 1 else 0) + countVotes rest w

/-- The number of submissions whose `koVoteKey` is `w`, i.e. the votes the
code actually tallies for `w` (drops votes for id `0`). -/
def voteKeyCount : List (String × Submission) → Int → Nat
  | [], _ => 0
  | kv :: rest, w =>
      (if koVoteKey kv.2 = some w then 1 else 0) + voteKeyCount rest w

/-- Competitor A's point total written as a per-judge sum: each submission
with truthy `scores` contributes its `judgeScoreA`. -/
def sumA : List (String × Submission) → Int
  | [] => 0
  | kv :: rest =>
      (if scoresTruthy kv.2.scores then judgeScoreA kv.2 else 0) + sumA rest

/-- Competitor B's point total written as a per-judge sum: each submission
with truthy `scores` contributes `11 - judgeScoreA`. -/
def sumB : List (String × Submission) → Int
  | [] => 0
  | kv :: rest =>
      (if scoresTruthy kv.2.scores then 11 - judgeScoreA kv.2 else 0) + sumB rest

/-- Spec-side definition, for comparison with the code: the sum of all
category point values present in a scores mapping, whatever the category
identifiers are. -/
def specCategorySum : List (String × Int) → Int
  | [] => 0
  | kv :: rest => kv.2 + specCategorySum rest

/-- Read a vote count from the embedded `ko_votes` dict (0 when absent). -/
def lookupN : List (Int × Nat) → Int → Nat
  | [], _ => 0
  | (k, v) :: rest, w => if k = w then v else lookupN rest w

/-- Key membership in the embedded `ko_votes` dict. -/
def hasKeyN : List (Int × Nat) → Int → Bool
  | [], _ => false
  | (k, _) :: rest, w => k == w || hasKeyN rest w

/-- Pairwise-distinct keys, the invariant of any list embedding a dict. -/
def nodupN : List (Int × Nat) → Bool
  | [] => true
  | (k, _) :: rest => !hasKeyN rest k && nodupN rest

/-- The score-record states reachable through the public operations: a
first submission creates the record (`match_scores` POST with no existing
row), further submissions go through the same view, deletions go through
`delete_judge_score`, and the attachment-recovery path of
`match_scores_details` caches a record with `finalized = True` and the
(always non-null) result dict stored in the system-written
`judge_scores` attachment. -/
inductive Reachable : JudgeScore → Prop where
  | first (mid : String) (p : SubmitPayload) (now : String) :
      Reachable (match_scores_post none mid p now).1
  | next (r : JudgeScore) (mid : String) (p : SubmitPayload) (now : String) :
      Reachable r → Reachable (match_scores_post (some r) mid p now).1
  | del (r : JudgeScore) (jid : String) :
      Reachable r → Reachable (deleteState r jid)
  | recover (mid tid : String) (a b : Option Int)
      (js : List (String × Submission)) (res : MatchResult) :
      Reachable { match_id := mid, tournament_id := tid, competitor_a_id := a,
                  competitor_b_id := b, judges := js, finalized := true,
                  result := some res }

/-- A knockout submission voting for `w`. -/
def subKO (w : Int) (t : String) : Submission :=
  { scores := none, isKO := true, koWinnerId := some w, submittedAt := t }

/-- A point submission carrying the scores mapping `l`. -/
def subPts (l : List (String × Int)) (t : String) : Submission :=
  { scores := some l, isKO := false, koWinnerId := none, submittedAt := t }

/-- A fresh record for match "m" between competitors 1 (A) and 2 (B). -/
def baseRecord : JudgeScore :=
  { match_id := "m", tournament_id := "t", competitor_a_id := some 1,
    competitor_b_id := some 2, judges := [], finalized := false, result := none }

/-- The empty submission set: both point totals are zero. -/
def r1x : JudgeScore := baseRecord

/-- Four knockout votes, two for competitor A (id 1) then two for
competitor B (id 2). -/
def r3x : JudgeScore :=
  { baseRecord with judges :=
      [("j1", subKO 1 "t1"), ("j2", subKO 1 "t2"),
       ("j3", subKO 2 "t3"), ("j4", subKO 2 "t4")] }

/-- Two knockout votes for competitor B (id 2), nobody else. -/
def r3w : JudgeScore :=
  { baseRecord with judges := [("j1", subKO 2 "t1"), ("j2", subKO 2 "t2")] }

/-- Two knockout votes for id 9, which is neither competitor, plus a point
submission. -/
def r10 : JudgeScore :=
  { baseRecord with judges :=
      [("j1", subKO 9 "t1"), ("j2", subKO 9 "t2"),
       ("j3", subPts [("aggression", 3), ("damage", 5), ("control", 3)] "t3")] }

/-- A single judge whose categories sum past the fixed per-judge
ceiling 11. -/
def r4x : JudgeScore :=
  { baseRecord with judges := [("j1", subPts [("aggression", 12)] "t1")] }

/-- A single judge with the default 3/5/3 schema maxed out. -/
def r4w : JudgeScore :=
  { baseRecord with judges :=
      [("j1", subPts [("aggression", 3), ("damage", 5), ("control", 3)] "t1")] }

/-- A submission that carries a present-but-empty scores mapping. -/
def sub5 : Submission := subPts [] "t1"

/-- A one-judge set whose only submission carries the empty mapping. -/
def r5x : JudgeScore := { baseRecord with judges := [("j1", sub5)] }

/-- Three point-only judges. -/
def r5w : JudgeScore :=
  { baseRecord with judges :=
      [("j1", subPts [("aggression", 3), ("damage", 5), ("control", 3)] "t1"),
       ("j2", subPts [("aggression", 0), ("damage", 0), ("control", 0)] "t2"),
       ("j3", subPts [("aggression", 1), ("damage", 2), ("control", 3)] "t3")] }

/-- A submission whose scores mapping holds only a foreign category. -/
def sub6 : Submission := subPts [("style", 5)] "t1"

/-- A one-judge set whose submission scores only the foreign category. -/
def r6x : JudgeScore := { baseRecord with judges := [("j1", sub6)] }

/-- One judge mixing a foreign category with a known one. -/
def r6w : JudgeScore :=
  { baseRecord with judges := [("j1", subPts [("style", 4), ("aggression", 2)] "t1")] }

/-- A stored result, as the finalize step would have computed it. -/
def resF : MatchResult :=
  { winnerId := some 1, winMethod := "points", scoreA := 19, scoreB := 14,
    koVotes := none }

/-- A finalized record with three judges and a stored result. -/
def rF : JudgeScore :=
  { baseRecord with
    finalized := true
    result := some resF
    judges :=
      [("j1", subPts [("aggression", 3), ("damage", 5), ("control", 3)] "t1"),
       ("j2", subPts [("aggression", 3)] "t2"),
       ("j3", subPts [("damage", 5)] "t3")] }

/-- A fourth judge's point submission arriving after finalization. -/
def p4 : SubmitPayload :=
  { judge_id := "j4", tournament_id := "t", competitor_a_id := 1,
    competitor_b_id := 2, scores := some [("aggression", 2)], is_ko := false,
    ko_winner_id := none }

/-- A non-finalized record holding a submission from judge "j2" only. -/
def rDn : JudgeScore :=
  { baseRecord with judges := [("j2", subPts [("aggression", 1)] "t1")] }

/-- A first judge's knockout submission. -/
def p8 : SubmitPayload :=
  { judge_id := "j1", tournament_id := "t", competitor_a_id := 1,
    competitor_b_id := 2, scores := none, is_ko := true, ko_winner_id := some 1 }

/-! Lemmas about the `ko_votes` dict embedding. -/

lemma lookupN_koBump (l : List (Int × Nat)) (w x : Int) :
    lookupN (koBump l w) x = lookupN l x + (if x = w then 1 else 0) := by
  induction l with
  | nil =>
    by_cases h : x = w
    · subst h; simp [koBump, lookupN]
    · have h' : ¬ w = x := fun hc => h hc.symm
      simp [koBump, lookupN, h, h']
  | cons kv rest ih =>
    obtain ⟨k, v⟩ := kv
    by_cases hk : k = w
    · subst hk
      by_cases hx : k = x
      · subst hx; simp [koBump, lookupN]
      · have hx' : ¬ x = k := fun hc => hx hc.symm
        simp [koBump, lookupN, hx, hx']
    · by_cases hx : k = x
      · subst hx
        have hxw : ¬ k = w := hk
        simp [koBump, lookupN, hk, hxw]
      · have hx' : ¬ x = k := fun hc => hx hc.symm
        simp [koBump, lookupN, hk, hx, hx', ih]

lemma hasKeyN_koBump (l : List (Int × Nat)) (w x : Int) :
    hasKeyN (koBump l w) x = (hasKeyN l x || x == w) := by
  induction l with
  | nil =>
    by_cases h : w = x
    · subst h; simp [koBump, hasKeyN]
    · have h' : ¬ x = w := fun hc => h hc.symm
      simp [koBump, hasKeyN, h, h']
  | cons kv rest ih =>
    obtain ⟨k, v⟩ := kv
    by_cases hk : k = w
    · subst hk
      by_cases hx : k = x
      · subst hx; simp [koBump, hasKeyN]
      · have hx' : ¬ x = k := fun hc => hx hc.symm
        simp [koBump, hasKeyN, hx, hx']
    · simp [koBump, hasKeyN, hk, ih, Bool.or_assoc]

lemma nodupN_koBump (l : List (Int × Nat)) (w : Int) (h : nodupN l = true) :
    nodupN (koBump l w) = true := by
  induction l with
  | nil => simp [koBump, nodupN, hasKeyN]
  | cons kv rest ih =>
    obtain ⟨k, v⟩ := kv
    simp only [nodupN, Bool.and_eq_true, Bool.not_eq_true'] at h
    by_cases hk : k = w
    · subst hk
      simp only [koBump, if_pos rfl, nodupN, Bool.and_eq_true, Bool.not_eq_true']
      exact h
    · simp only [koBump, hk, if_false, nodupN, Bool.and_eq_true, Bool.not_eq_true']
      refine ⟨?_, ih h.2⟩
      rw [hasKeyN_koBump]
      have hkw : ¬ (k = w) := hk
      simp [h.1, hkw]

lemma mem_hasKeyN (l : List (Int × Nat)) (k : Int) (v : Nat)
    (h : (k, v) ∈ l) : hasKeyN l k = true := by
  induction l with
  | nil => cases h
  | cons kv rest ih =>
    rcases List.mem_cons.mp h with h1 | h1
    · simp [hasKeyN, h1.symm]
    · simp [hasKeyN, ih h1]

lemma entry_lookupN (l : List (Int × Nat)) (hnd : nodupN l = true)
    (k : Int) (v : Nat) (h : (k, v) ∈ l) : lookupN l k = v := by
  induction l with
  | nil => cases h
  | cons kv rest ih =>
    obtain ⟨k0, v0⟩ := kv
    simp only [nodupN, Bool.and_eq_true, Bool.not_eq_true'] at hnd
    rcases List.mem_cons.mp h with h1 | h1
    · obtain ⟨hk, hv⟩ := Prod.mk.injEq .. ▸ h1
      simp [lookupN, hk.symm, hv]
    · by_cases hk : k0 = k
      · subst hk
        exact absurd (mem_hasKeyN rest k0 v h1) (by simp [hnd.1])
      · simp [lookupN, hk, ih hnd.2 h1]

lemma lookupN_pos_hasKeyN (l : List (Int × Nat)) (w : Int)
    (h : 0 < lookupN l w) : hasKeyN l w = true := by
  induction l with
  | nil => simp [lookupN] at h
  | cons kv rest ih =>
    obtain ⟨k, v⟩ := kv
    by_cases hk : k = w
    · simp [hasKeyN, hk]
    · simp only [lookupN, hk, if_false] at h
      simp [hasKeyN, ih h]

lemma koTallyFrom_lookupN (js : List (String × Submission)) :
    ∀ (acc : List (Int × Nat)) (w : Int),
      lookupN (koTallyFrom acc js) w = lookupN acc w + voteKeyCount js w := by
  induction js with
  | nil => intro acc w; simp [koTallyFrom, voteKeyCount]
  | cons kv rest ih =>
    intro acc w
    simp only [koTallyFrom, voteKeyCount]
    cases hkey : koVoteKey kv.2 with
    | none => simp [ih, hkey]
    | some u =>
      rw [ih, lookupN_koBump]
      by_cases hu : u = w
      · subst hu
        simp [hkey]
        omega
      · have hnk : ¬ koVoteKey kv.2 = some w := by
          rw [hkey]; intro hc; exact hu (Option.some.inj hc)
        have hwu : ¬ w = u := fun h => hu h.symm
        simp [hnk, hwu, hu]

lemma koTallyFrom_nodupN (js : List (String × Submission)) :
    ∀ acc : List (Int × Nat), nodupN acc = true →
      nodupN (koTallyFrom acc js) = true := by
  induction js with
  | nil => intro acc h; simpa [koTallyFrom] using h
  | cons kv rest ih =>
    intro acc h
    simp only [koTallyFrom]
    cases hkey : koVoteKey kv.2 with
    | none => exact ih acc h
    | some u => exact ih (koBump acc u) (nodupN_koBump acc u h)

lemma koVoteKey_some (j : Submission) (w : Int) (h : koVoteKey j = some w) :
    j.isKO = true ∧ j.koWinnerId = some w ∧ w ≠ 0 := by
  cases hb : j.isKO with
  | false => simp [koVoteKey, hb] at h
  | true =>
    cases hw : j.koWinnerId with
    | none => simp [koVoteKey, hb, hw] at h
    | some x =>
      by_cases hx : x = 0
      · simp [koVoteKey, hb, hw, hx] at h
      · simp only [koVoteKey, hb, if_true, hw, hx, if_false,
          Option.some.injEq] at h
        exact ⟨rfl, by rw [h], fun hc => hx (h.trans hc)⟩

lemma koVoteKey_of (j : Submission) (w : Int) (h1 : j.isKO = true)
    (h2 : j.koWinnerId = some w) (h3 : w ≠ 0) : koVoteKey j = some w := by
  simp [koVoteKey, h1, h2, h3]

lemma voteKeyCount_le_countVotes (js : List (String × Submission)) (w : Int) :
    voteKeyCount js w ≤ countVotes js w := by
  induction js with
  | nil => simp [voteKeyCount, countVotes]
  | cons kv rest ih =>
    simp only [voteKeyCount, countVotes]
    by_cases h : koVoteKey kv.2 = some w
    · obtain ⟨h1, h2, _⟩ := koVoteKey_some kv.2 w h
      have hc : (kv.2.isKO && kv.2.koWinnerId == some w) = true := by
        simp [h1, h2]
      simp only [h, if_pos, hc, if_true]
      omega
    · by_cases hc : (kv.2.isKO && kv.2.koWinnerId == some w) = true
      · simp only [h, if_false, hc, if_true]
        omega
      · simp only [h, if_false, hc]
        omega

lemma voteKeyCount_eq_countVotes (js : List (String × Submission)) (w : Int)
    (hw : w ≠ 0) : voteKeyCount js w = countVotes js w := by
  induction js with
  | nil => simp [voteKeyCount, countVotes]
  | cons kv rest ih =>
    simp only [voteKeyCount, countVotes, ih]
    congr 1
    by_cases hc : (kv.2.isKO && kv.2.koWinnerId == some w) = true
    · have h12 : kv.2.isKO = true ∧ kv.2.koWinnerId = some w := by
        simpa using hc
      simp [koVoteKey_of kv.2 w h12.1 h12.2 hw, hc]
    · have h : ¬ koVoteKey kv.2 = some w := by
        intro hcc
        obtain ⟨h1, h2, _⟩ := koVoteKey_some kv.2 w hcc
        exact hc (by simp [h1, h2])
      simp [h, hc]

lemma findMaj_eq_none (l : List (Int × Nat)) (h : ∀ kv ∈ l, kv.2 < 2) :
    findMaj l = none := by
  induction l with
  | nil => rfl
  | cons kv rest ih =>
    have h1 := h kv (List.mem_cons_self kv rest)
    simp only [findMaj, if_neg (by omega : ¬ 2 ≤ kv.2)]
    exact ih fun x hx => h x (List.mem_cons_of_mem kv hx)

lemma findMaj_eq_some (l : List (Int × Nat)) (c : Int) (vc : Nat)
    (hk : hasKeyN l c = true) (hl : lookupN l c = vc) (h2 : 2 ≤ vc)
    (ho : ∀ kv ∈ l, kv.1 ≠ c → kv.2 < 2) :
    findMaj l = some (c, vc) := by
  induction l with
  | nil => simp [hasKeyN] at hk
  | cons kv rest ih =>
    obtain ⟨k, v⟩ := kv
    by_cases hkc : k = c
    · subst hkc
      have hv : v = vc := by simpa [lookupN] using hl
      subst hv
      simp [findMaj, h2]
    · have hv : v < 2 := ho (k, v) (List.mem_cons_self _ _) hkc
      simp only [findMaj, if_neg (by omega : ¬ 2 ≤ v)]
      refine ih ?_ ?_ fun x hx h => ho x (List.mem_cons_of_mem _ hx) h
      · simpa [hasKeyN, hkc] using hk
      · simpa [lookupN, hkc] using hl

/-- When no identifier holds two tallied votes, the majority scan comes up
empty and the point tally runs. -/
lemma tally_none_of_no_majority (js : List (String × Submission))
    (h : ∀ w, countVotes js w < 2) :
    findMaj (koTallyFrom [] js) = none := by
  apply findMaj_eq_none
  intro kv hmem
  have hnd := koTallyFrom_nodupN js [] rfl
  have hv := entry_lookupN _ hnd kv.1 kv.2 hmem
  have hl := koTallyFrom_lookupN js [] kv.1
  have hle := voteKeyCount_le_countVotes js kv.1
  have := h kv.1
  simp only [lookupN] at hl
  omega

/-- When `c` is the unique identifier holding two or more votes (and is
nonzero, so truthiness keeps its votes), the majority scan returns `c`
with its full vote count. -/
lemma tally_some_of_unique_majority (js : List (String × Submission)) (c : Int)
    (hc0 : c ≠ 0) (hmaj : 2 ≤ countVotes js c)
    (hu : ∀ d, d ≠ c → countVotes js d < 2) :
    findMaj (koTallyFrom [] js) = some (c, countVotes js c) := by
  have hnd := koTallyFrom_nodupN js [] rfl
  have hlc : lookupN (koTallyFrom [] js) c = countVotes js c := by
    have h := koTallyFrom_lookupN js [] c
    simp only [lookupN] at h
    rw [h, voteKeyCount_eq_countVotes js c hc0]
    omega
  refine findMaj_eq_some _ c _ ?_ hlc hmaj ?_
  · apply lookupN_pos_hasKeyN
    rw [hlc]
    omega
  · intro kv hmem hne
    have hv := entry_lookupN _ hnd kv.1 kv.2 hmem
    have hl := koTallyFrom_lookupN js [] kv.1
    have hle := voteKeyCount_le_countVotes js kv.1
    have := hu kv.1 hne
    simp only [lookupN] at hl
    omega

/-! Lemmas about the point tally. -/

lemma pointTotalsFrom_eq (js : List (String × Submission)) :
    ∀ ta tb : Int, pointTotalsFrom ta tb js = (ta + sumA js, tb + sumB js) := by
  induction js with
  | nil => intro ta tb; simp [pointTotalsFrom, sumA, sumB]
  | cons kv rest ih =>
    intro ta tb
    cases h : scoresTruthy kv.2.scores with
    | true =>
      simp only [pointTotalsFrom, h, if_true, sumA, sumB]
      rw [ih]
      simp only [Prod.mk.injEq]
      constructor <;> ring
    | false =>
      simp [pointTotalsFrom, h, sumA, sumB, ih]

lemma sumA_add_sumB (js : List (String × Submission))
    (h : ∀ kv ∈ js, scoresTruthy kv.2.scores = true) :
    sumA js + sumB js = (js.length : Int) * 11 := by
  induction js with
  | nil => simp [sumA, sumB]
  | cons kv rest ih =>
    have hh := h kv (List.mem_cons_self kv rest)
    have ihh := ih fun x hx => h x (List.mem_cons_of_mem kv hx)
    simp only [sumA, sumB, hh, if_true, List.length_cons]
    push_cast
    omega

lemma sumA_nonneg (js : List (String × Submission))
    (h : ∀ kv ∈ js, 0 ≤ judgeScoreA kv.2) : 0 ≤ sumA js := by
  induction js with
  | nil => simp [sumA]
  | cons kv rest ih =>
    have hh := h kv (List.mem_cons_self kv rest)
    have ihh := ih fun x hx => h x (List.mem_cons_of_mem kv hx)
    simp only [sumA]
    by_cases hc : scoresTruthy kv.2.scores = true
    · simp only [hc, if_true]; omega
    · simp only [hc, if_false]; omega

lemma sumB_nonneg (js : List (String × Submission))
    (h : ∀ kv ∈ js, judgeScoreA kv.2 ≤ 11) : 0 ≤ sumB js := by
  induction js with
  | nil => simp [sumB]
  | cons kv rest ih =>
    have hh := h kv (List.mem_cons_self kv rest)
    have ihh := ih fun x hx => h x (List.mem_cons_of_mem kv hx)
    simp only [sumB]
    by_cases hc : scoresTruthy kv.2.scores = true
    · simp only [hc, if_true]; omega
    · simp only [hc, if_false]; omega

/-- When the majority scan comes up empty, `calculate_result` takes the
point-tally branch, winner A exactly when A's total is strictly greater. -/
lemma calculate_result_points (r : JudgeScore)
    (h : findMaj (koTallyFrom [] r.judges) = none) :
    calculate_result r =
      { winnerId := if sumB r.judges < sumA r.judges
                    then r.competitor_a_id else r.competitor_b_id
        winMethod := "points"
        scoreA := sumA r.judges
        scoreB := sumB r.judges
        koVotes := none } := by
  simp only [calculate_result, h, pointTotalsFrom_eq r.judges 0 0, zero_add]

/-! Lemmas about the judges dict. -/

lemma hasJudge_false_lookupJudge (l : List (String × Submission)) (k : String)
    (h : hasJudge l k = false) : lookupJudge l k = none := by
  induction l with
  | nil => rfl
  | cons kv rest ih =>
    obtain ⟨k0, v0⟩ := kv
    simp only [hasJudge, Bool.or_eq_false_iff, beq_eq_false_iff_ne] at h
    simp [lookupJudge, h.1, ih h.2]

lemma lookupJudge_removeJudge_self (l : List (String × Submission)) (k : String)
    (hnd : judgesNodup l = true) : lookupJudge (removeJudge l k) k = none := by
  induction l with
  | nil => rfl
  | cons kv rest ih =>
    obtain ⟨k0, v0⟩ := kv
    simp only [judgesNodup, Bool.and_eq_true, Bool.not_eq_true'] at hnd
    by_cases hk : k0 = k
    · subst hk
      simp only [removeJudge, if_pos rfl]
      exact hasJudge_false_lookupJudge rest k0 hnd.1
    · simp [removeJudge, lookupJudge, hk, ih hnd.2]

lemma lookupJudge_removeJudge_other (l : List (String × Submission))
    (k j : String) (hne : ¬ j = k) :
    lookupJudge (removeJudge l k) j = lookupJudge l j := by
  induction l with
  | nil => rfl
  | cons kv rest ih =>
    obtain ⟨k0, v0⟩ := kv
    by_cases hk : k0 = k
    · subst hk
      have : ¬ k0 = j := fun hc => hne (hc.symm.trans rfl)
      simp [removeJudge, lookupJudge, this]
    · by_cases hj : k0 = j
      · simp [removeJudge, lookupJudge, hk, hj, hne]
      · simp [removeJudge, lookupJudge, hk, hj, ih]

/-- The record stored by the `delete_judge_score` view on an existing
record is exactly `deleteState`. -/
lemma delete_view_state (r : JudgeScore) (jid : String) :
    (delete_judge_score (some r) jid).1 = some (deleteState r jid) := by
  simp only [delete_judge_score, deleteState, remove_judge_score]
  by_cases h : r.finalized = true
  · simp [h]
  · have hf : r.finalized = false := by
      cases hb : r.finalized
      · rfl
      · exact absurd hb h
    by_cases hj : hasJudge r.judges jid = true <;> simp [hf, hj]

/-! Lemmas about the submit view's state transitions. -/

/-- A first submission creates a record that is not yet finalized and has
no result (one judge is short of quorum). -/
lemma msp_first_state (mid : String) (p : SubmitPayload) (now : String) :
    (match_scores_post none mid p now).1.result = none
    ∧ (match_scores_post none mid p now).1.finalized = false := by
  simp [match_scores_post, add_judge_score, setJudge]

/-- A submission on an existing record preserves the result-iff-finalized
invariant: the finalize branch sets both together, the waiting branch
touches neither. -/
lemma msp_preserves (s : JudgeScore) (mid : String) (p : SubmitPayload)
    (now : String) (hs : ¬ s.result = none ↔ s.finalized = true) :
    ¬ (match_scores_post (some s) mid p now).1.result = none
      ↔ (match_scores_post (some s) mid p now).1.finalized = true := by
  simp only [match_scores_post]
  split
  · simp
  · simpa [add_judge_score] using hs

/-- The delete view never touches `finalized` or `result`. -/
lemma deleteState_preserves (r : JudgeScore) (jid : String) :
    (deleteState r jid).result = r.result
    ∧ (deleteState r jid).finalized = r.finalized := by
  simp only [deleteState, remove_judge_score]
  cases hb : r.finalized
  · by_cases hj : hasJudge r.judges jid = true <;> simp [hb, hj]
  · simp [hb]

/-! The claims. -/

/-- C1 (counterexample): on the empty submission set both totals are zero,
yet `calculate_result` names competitor B (id 2), not competitor A, as the
winner — `total_a > total_b` is false on a tie, so the tie goes to B,
refuting the claim that ties are broken in favor of competitor A. -/
theorem points_tie_winner_counterexample :
    calculate_result r1x =
      { winnerId := some 2, winMethod := "points", scoreA := 0, scoreB := 0,
        koVotes := none }
    ∧ r1x.competitor_a_id = some 1 ∧ r1x.competitor_b_id = some 2
    ∧ ¬ (calculate_result r1x).winnerId = r1x.competitor_a_id := by decide

/-- C1 (amended): for every submission set with no knockout majority and
equal point totals (including the empty set, where both totals are zero),
`calculate_result` returns competitor B as the winner with method
Points. -/
theorem points_tie_winner_is_b (r : JudgeScore)
    (hko : ∀ w, countVotes r.judges w < 2)
    (heq : sumA r.judges = sumB r.judges) :
    calculate_result r =
      { winnerId := r.competitor_b_id, winMethod := "points",
        scoreA := sumA r.judges, scoreB := sumB r.judges, koVotes := none }
    ∧ (r.judges = [] →
        calculate_result r =
          { winnerId := r.competitor_b_id, winMethod := "points",
            scoreA := 0, scoreB := 0, koVotes := none }) := by
  have hnone := tally_none_of_no_majority r.judges hko
  have hpts := calculate_result_points r hnone
  have hlt : ¬ sumB r.judges < sumA r.judges := by omega
  constructor
  · rw [hpts]
    simp [hlt]
  · intro hj
    have h0 : sumA r.judges = 0 := by rw [hj]; rfl
    have h0b : sumB r.judges = 0 := by rw [hj]; rfl
    rw [hpts, h0, h0b]
    simp

/-- C1 (witness): the amended tie rule evaluated on the empty submission
set: winner B, method Points, scores 0-0. -/
theorem points_tie_winner_is_b_witness :
    calculate_result r1x =
      { winnerId := r1x.competitor_b_id, winMethod := "points",
        scoreA := sumA r1x.judges, scoreB := sumB r1x.judges,
        koVotes := none } :=
  (points_tie_winner_is_b r1x
    (fun w => by simp [r1x, baseRecord, countVotes])
    (by decide)).1

/-- C2: the POST branch of `match_scores` does not guard on `finalized`
before storing the submission.  Evaluating the embedded view on a
finalized three-judge record and a fourth judge's payload: the call
succeeds, the judges map grows to four entries, and the response reports
`finalized = False` with the message `Waiting for -1 more judge(s)`,
while the stored record keeps `finalized = True` and the old result. -/
theorem submit_after_finalize_behavior :
    (match_scores_post (some rF) "m" p4 "now").2.success = true
    ∧ (match_scores_post (some rF) "m" p4 "now").2.finalized = false
    ∧ (match_scores_post (some rF) "m" p4 "now").2.message
        = some "Waiting for -1 more judge(s)"
    ∧ (match_scores_post (some rF) "m" p4 "now").1.judges.length = 4
    ∧ ¬ (match_scores_post (some rF) "m" p4 "now").1.judges = rF.judges
    ∧ (match_scores_post (some rF) "m" p4 "now").1.result = rF.result
    ∧ (match_scores_post (some rF) "m" p4 "now").1.finalized = true := by
  decide

/-- C3 (counterexample): on a four-submission set where ids 1 and 2 both
accumulate two knockout votes, competitor B (id 2) has 2 votes with a
non-null knockout winner, yet the winner returned is id 1 — the code
returns the first id reaching two votes in insertion order, so "that
competitor wins" fails without a uniqueness proviso. -/
theorem ko_majority_counterexample :
    2 ≤ countVotes r3x.judges 2
    ∧ r3x.competitor_b_id = some 2
    ∧ (calculate_result r3x).winMethod = "ko"
    ∧ (calculate_result r3x).winnerId = some 1
    ∧ ¬ (calculate_result r3x).winnerId = some 2 := by decide

/-- C3 (amended): whenever a competitor identifier `c` is nonzero (Python
truthiness silently drops votes recorded for id 0) and is the unique
identifier with two or more knockout votes (automatic when at most three
submissions exist), `calculate_result` returns method Knockout with `c` as
winner, 33 on the winner's side and 0 on the other, and `koVotes` equal to
`c`'s vote count — regardless of any point submissions present and of how
many submissions exist. -/
theorem ko_majority_unique_winner (r : JudgeScore) (c : Int)
    (hc0 : ¬ c = 0)
    (hcomp : r.competitor_a_id = some c ∨ r.competitor_b_id = some c)
    (hmaj : 2 ≤ countVotes r.judges c)
    (huniq : ∀ d, ¬ d = c → countVotes r.judges d < 2) :
    calculate_result r =
      { winnerId := some c
        winMethod := "ko"
        scoreA := if r.competitor_a_id = some c then 33 else 0
        scoreB := if r.competitor_a_id = some c then 0 else 33
        koVotes := some (countVotes r.judges c) } := by
  have hfind := tally_some_of_unique_majority r.judges c hc0 hmaj
    (fun d hd => huniq d hd)
  simp only [calculate_result, hfind]
  norm_num

/-- C3 (witness): two knockout votes for competitor B (id 2) and nobody
else: method Knockout, winner B, scoreB 33, scoreA 0, two votes. -/
theorem ko_majority_unique_winner_witness :
    calculate_result r3w =
      { winnerId := some 2, winMethod := "ko", scoreA := 0, scoreB := 33,
        koVotes := some 2 } := by
  have h := ko_majority_unique_winner r3w 2 (by decide)
    (Or.inr (by decide)) (by decide)
    (fun d hd => by
      have hd2 : ¬ (2 : Int) = d := fun hc => hd hc.symm
      simp [countVotes, r3w, baseRecord, subKO, hd2])
  rw [h]
  decide

/-- C4 (counterexample): nothing validates score magnitudes; a single
judge submitting `aggression = 12` drives competitor B's total to
`11 - 12 = -1`, so the produced scoreB is negative. -/
theorem negative_score_counterexample :
    (calculate_result r4x).scoreB < 0
    ∧ (calculate_result r4x).scoreB = -1 := by decide

/-- C4 (amended): the result's scores are non-negative provided every
judge's summed aggression + damage + control lies between 0 and 11 (as the
default 3/5/3 schema guarantees); the knockout branch is unconditionally
non-negative. -/
theorem scores_nonneg_bounded (r : JudgeScore)
    (hb : ∀ kv ∈ r.judges, 0 ≤ judgeScoreA kv.2 ∧ judgeScoreA kv.2 ≤ 11) :
    0 ≤ (calculate_result r).scoreA ∧ 0 ≤ (calculate_result r).scoreB := by
  cases hfind : findMaj (koTallyFrom [] r.judges) with
  | some kv =>
    simp only [calculate_result, hfind]
    constructor <;> split <;> norm_num
  | none =>
    have h := calculate_result_points r hfind
    rw [h]
    exact ⟨sumA_nonneg _ (fun kv hkv => (hb kv hkv).1),
           sumB_nonneg _ (fun kv hkv => (hb kv hkv).2)⟩

/-- C4 (witness): a judge using the default 3/5/3 schema yields
non-negative scores. -/
theorem scores_nonneg_bounded_witness :
    0 ≤ (calculate_result r4w).scoreA ∧ 0 ≤ (calculate_result r4w).scoreB :=
  scores_nonneg_bounded r4w (by decide)

/-- C5 (counterexample): a judge whose submission carries a present but
empty `scores` mapping is skipped by the truthiness test
`if judge.get('scores')`, so a one-judge set sums to 0 + 0, not
`judgeCount * 11` — "carries a scores mapping" must exclude the empty
mapping. -/
theorem empty_scores_sum_counterexample :
    sub5.scores = some []
    ∧ ¬ sub5.scores = none
    ∧ r5x.judges.length = 1
    ∧ (calculate_result r5x).winMethod = "points"
    ∧ (calculate_result r5x).scoreA + (calculate_result r5x).scoreB = 0
    ∧ ¬ ((calculate_result r5x).scoreA + (calculate_result r5x).scoreB
          = (r5x.judges.length : Int) * 11) := by decide

/-- C5 (amended): for every submission set in which every judge carries a
non-empty scores mapping and no identifier has a knockout majority,
`scoreA + scoreB = judgeCount * 11` exactly, and the method is Points. -/
theorem point_sum_eq_judges_mul_eleven (r : JudgeScore)
    (hscores : ∀ kv ∈ r.judges, scoresTruthy kv.2.scores = true)
    (hko : ∀ w, countVotes r.judges w < 2) :
    (calculate_result r).scoreA + (calculate_result r).scoreB
      = (r.judges.length : Int) * 11
    ∧ (calculate_result r).winMethod = "points" := by
  have hnone := tally_none_of_no_majority r.judges hko
  have h := calculate_result_points r hnone
  rw [h]
  exact ⟨sumA_add_sumB r.judges hscores, rfl⟩

/-- C5 (witness): three point submissions sum to 3 × 11 = 33 across both
columns. -/
theorem point_sum_eq_judges_mul_eleven_witness :
    (calculate_result r5w).scoreA + (calculate_result r5w).scoreB = 33
    ∧ (calculate_result r5w).winMethod = "points" := by
  have h := point_sum_eq_judges_mul_eleven r5w (by decide)
    (fun w => by simp [countVotes, r5w, baseRecord, subPts])
  refine ⟨?_, h.2⟩
  rw [h.1]
  decide

/-- C6 (counterexample): the claim says a judge's score for A is the sum
of all category values present, whatever the identifiers; a judge scoring
only the foreign category `style = 5` (category sum 5) contributes 0,
because the code reads only `aggression`, `damage` and `control`. -/
theorem foreign_category_counterexample :
    sub6.scores = some [("style", 5)]
    ∧ specCategorySum [("style", 5)] = 5
    ∧ (calculate_result r6x).scoreA = 0
    ∧ ¬ (calculate_result r6x).scoreA = specCategorySum [("style", 5)] := by
  decide

/-- C6 (amended): with no knockout majority, the result's totals are the
per-judge sums in which each judge with a truthy scores mapping
contributes `judgeScoreA` — the sum of only its `aggression`, `damage` and
`control` values, each defaulting to 0, every other category ignored — to
A, and `11 - judgeScoreA` to B. -/
theorem per_judge_fixed_categories (r : JudgeScore)
    (hko : ∀ w, countVotes r.judges w < 2) :
    (calculate_result r).scoreA = sumA r.judges
    ∧ (calculate_result r).scoreB = sumB r.judges := by
  have hnone := tally_none_of_no_majority r.judges hko
  have h := calculate_result_points r hnone
  rw [h]
  exact ⟨rfl, rfl⟩

/-- C6 (witness): a judge submitting `style = 4, aggression = 2` scores
2 for A (style ignored) and 9 for B. -/
theorem per_judge_fixed_categories_witness :
    (calculate_result r6w).scoreA = 2 ∧ (calculate_result r6w).scoreB = 9 := by
  have h := per_judge_fixed_categories r6w
    (fun w => by simp [countVotes, r6w, baseRecord, subPts])
  exact ⟨h.1.trans (by decide), h.2.trans (by decide)⟩

/-- C7 (counterexample): on a non-finalized record where judge "j1" holds
no live submission, the delete operation does not return a plain false —
it answers an error (HTTP 404 with `Score not found`), refuting
"returns false (not an error)". -/
theorem delete_missing_error_counterexample :
    rDn.finalized = false
    ∧ hasJudge rDn.judges "j1" = false
    ∧ ¬ (delete_judge_score (some rDn) "j1").2.error = none
    ∧ (delete_judge_score (some rDn) "j1").2.status = 404
    ∧ (delete_judge_score (some rDn) "j1").2.success = false := by decide

/-- C7 (amended): `delete_judge_score` fails with 400
`Match already finalized` on a finalized record, leaving it unchanged;
when not finalized and the judge has no live submission, the view answers
404 `Score not found` (an error at the HTTP level — the underlying model
helper `remove_judge_score` returns false without raising) and mutates
nothing; otherwise it removes exactly that judge's entry — the judge's
entry is gone, every other judge's entry, `finalized` and `result` are
unchanged — so the judge can resubmit.  (`judgesNodup` is the dict-key
uniqueness every stored record satisfies.) -/
theorem delete_judge_score_spec (r : JudgeScore) (jid : String)
    (hnd : judgesNodup r.judges = true) :
    (r.finalized = true →
       delete_judge_score (some r) jid
         = (some r, { status := 400, success := false,
                      error := some "Match already finalized" }))
    ∧ (r.finalized = false → hasJudge r.judges jid = false →
       (remove_judge_score r jid).2 = false
       ∧ delete_judge_score (some r) jid
           = (some r, { status := 404, success := false,
                        error := some "Score not found" }))
    ∧ (r.finalized = false → hasJudge r.judges jid = true →
       delete_judge_score (some r) jid
         = (some { r with judges := removeJudge r.judges jid },
            { status := 200, success := true, error := none })
       ∧ lookupJudge (removeJudge r.judges jid) jid = none
       ∧ (∀ j, ¬ j = jid →
            lookupJudge (removeJudge r.judges jid) j = lookupJudge r.judges j)
       ∧ ({ r with judges := removeJudge r.judges jid } : JudgeScore).finalized
            = r.finalized
       ∧ ({ r with judges := removeJudge r.judges jid } : JudgeScore).result
            = r.result) := by
  refine ⟨?_, ?_, ?_⟩
  · intro hf
    simp [delete_judge_score, hf]
  · intro hf hj
    refine ⟨by simp [remove_judge_score, hj], ?_⟩
    simp [delete_judge_score, hf, remove_judge_score, hj]
  · intro hf hj
    refine ⟨?_, lookupJudge_removeJudge_self _ _ hnd,
        fun j hja => lookupJudge_removeJudge_other _ _ _ hja, rfl, rfl⟩
    simp [delete_judge_score, hf, remove_judge_score, hj]

/-- C7 (witness): deleting from the finalized record `rF` answers 400
`Match already finalized` and leaves the record untouched. -/
theorem delete_judge_score_spec_witness :
    delete_judge_score (some rF) "jz"
      = (some rF, { status := 400, success := false,
                    error := some "Match already finalized" }) :=
  (delete_judge_score_spec rF "jz" (by decide)).1 (by decide)

/-- C8: on every record reachable through the public operations —
creation on first submit, further submits (including the unguarded
post-finalization one), deletes, finalization, and the
attachment-recovery caching path (whose system-written breakdown always
embeds the non-null computed result) — `result` is non-null exactly when
`finalized` is true. -/
theorem result_iff_finalized (r : JudgeScore) (h : Reachable r) :
    ¬ r.result = none ↔ r.finalized = true := by
  induction h with
  | first mid p now =>
    have h := msp_first_state mid p now
    rw [h.1, h.2]
    simp
  | next r mid p now hr ih => exact msp_preserves r mid p now ih
  | del r jid hr ih =>
    have h := deleteState_preserves r jid
    rw [h.1, h.2]
    exact ih
  | recover mid tid a b js res => simp

/-- C8 (witness): the invariant instantiated at the record created by a
first knockout submission. -/
theorem result_iff_finalized_witness :
    ¬ (match_scores_post none "m" p8 "now").1.result = none
      ↔ (match_scores_post none "m" p8 "now").1.finalized = true :=
  result_iff_finalized _ (Reachable.first "m" p8 "now")

/-- C10: `calculate_result` never validates the knockout winner against
the record's competitors: two votes for id 9 — neither competitor 1 nor
competitor 2 — yield method Knockout with winnerId 9, scoreA 0 and
scoreB 33, because `is_winner_a` is simply false for the foreign id. -/
theorem foreign_ko_winner_credited_to_b :
    calculate_result r10 =
      { winnerId := some 9, winMethod := "ko", scoreA := 0, scoreB := 33,
        koVotes := some 2 }
    ∧ ¬ r10.competitor_a_id = some 9
    ∧ ¬ r10.competitor_b_id = some 9 := by decide

end Scar
